import Mathlib

/-!
Verification development for the connection / frame-reassembly layer of a
MongoDB wire-protocol client (`src/core/connection/connection.ts`).

Bytes are modelled as natural numbers (values below 256 on the wire; the
int32 reader reduces each byte mod 256, matching the fact that Node `Buffer`
cells are always below 256).  Buffers are `List Nat`.  The mutable fields
`bytesRead`, `sizeOfMessage`, `buffer`, `stubBuffer` of `Connection` form
the `ParseState` record, and the socket `data` handler becomes the pure
function `dataHandler`, which returns the updated parse state together with
the list of emitted events (`message` standing for a `processMessage`
invocation, `parseError` for a `parseError` emission).
-/

/-- The little-endian signed 32-bit read
`data[0] | (data[1] << 8) | (data[2] << 16) | (data[3] << 24)`
performed by the data handler (and by `Buffer.readInt32LE` in
`processMessage`).  Out-of-range list entries default to `0`; each byte is
reduced mod 256 as Node buffer cells always are. -/
def readInt32LE (data : List Nat) : Int :=
  let u : Nat := data.getD 0 0 % 256 + data.getD 1 0 % 256 * 256 +
    data.getD 2 0 % 256 * 65536 + data.getD 3 0 % 256 * 16777216
  if u < 2147483648 then (u : Int) else (u : Int) - 4294967296

/-- `src.copy(tgt, tgtStart)` for Node buffers: overwrite `tgt` starting at
index `tgtStart` with the bytes of `src`, clamped to the length of `tgt`
(the target buffer never grows). -/
def bufCopy (src tgt : List Nat) (tgtStart : Nat) : List Nat :=
  tgt.take tgtStart ++ src.take (tgt.length - tgtStart) ++ tgt.drop (tgtStart + src.length)

/-- The transient parsing fields of `Connection`
(`bytesRead`, `sizeOfMessage`, `buffer`, `stubBuffer`; source lines
103-107).  A `null` buffer is the empty list. -/
structure ParseState where
  bytesRead : Nat
  sizeOfMessage : Nat
  buffer : List Nat
  stubBuffer : List Nat
deriving DecidableEq, Repr

/-- The parse state of a freshly constructed connection, and the state
restored after every completed or rejected frame. -/
def emptyParse : ParseState :=
  { bytesRead := 0, sizeOfMessage := 0, buffer := [], stubBuffer := [] }

/-- Events produced while consuming one socket chunk: `message b` is a
`processMessage(conn, b)` call, `parseError` is an emission of the
`parseError` event. -/
inductive PEvent where
  | message (bytes : List Nat)
  | parseError
deriving DecidableEq, Repr

/-- Termination measure for the data-handler loop: every loop iteration
either consumes chunk bytes, absorbs the stub buffer, or resets the
accumulating flags. -/
def parseMeasure (st : ParseState) (data : List Nat) : Nat :=
  2 * (st.stubBuffer.length + data.length) +
    (if 0 < st.bytesRead ∧ 0 < st.sizeOfMessage then 1 else 0) +
    (if st.stubBuffer.length ≠ 0 then 1 else 0)

/-- The socket `data` handler (source lines 481-641), as a pure function of
the connection's `maxBsonMessageSize`, its current parse state and the
arriving chunk.  Faithful points to note:

* the accumulating branch is guarded by `bytesRead > 0 && sizeOfMessage > 0`;
* the held-stub branch concatenates only when `stub.length + data.length > 4`;
  in its else branch the source builds `newStubBuffer` but never assigns it
  to `conn.stubBuffer`, so the connection state is left entirely unchanged
  and the arriving bytes are dropped (lines 532-541);
* a negative or over-limit length prefix emits `parseError` and `return`s,
  leaving the state untouched and abandoning the rest of the chunk
  (lines 547-561);
* the accumulate / exact-fit branches both require
  `sizeOfMessage < maxBsonMessageSize` strictly (lines 564-594);
* `sizeOfMessage <= 4` (or over-limit) emits `parseError` and resets
  (lines 595-616); any remaining case emits the first `sizeOfMessage`
  bytes and loops on the rest (lines 617-628);
* a chunk of at most 4 bytes with no held state becomes the stub buffer
  (lines 629-636). -/
def dataHandler (maxBson : Nat) (st : ParseState) (data : List Nat) :
    ParseState × List PEvent :=
  if h0 : data.length = 0 then (st, [])
  else if hacc : 0 < st.bytesRead ∧ 0 < st.sizeOfMessage then
    let remainingBytesToRead := st.sizeOfMessage - st.bytesRead
    if hrem : data.length < remainingBytesToRead then
      ({ st with buffer := bufCopy data st.buffer st.bytesRead,
                 bytesRead := st.bytesRead + data.length }, [])
    else
      let emitBuffer := bufCopy (data.take remainingBytesToRead) st.buffer st.bytesRead
      let rest := dataHandler maxBson emptyParse (data.drop remainingBytesToRead)
      (rest.1, PEvent.message emitBuffer :: rest.2)
  else if hstub : st.stubBuffer.length ≠ 0 then
    if hcat : 4 < st.stubBuffer.length + data.length then
      dataHandler maxBson emptyParse (st.stubBuffer ++ data)
    else
      (st, [])
  else if hlen : 4 < data.length then
    let sizeOfMessage : Int := readInt32LE data
    if hbad : sizeOfMessage < 0 ∨ (maxBson : Int) < sizeOfMessage then
      (st, [PEvent.parseError])
    else if hacc1 : 4 < sizeOfMessage ∧ sizeOfMessage < (maxBson : Int) ∧
        (data.length : Int) < sizeOfMessage then
      ({ bytesRead := data.length, sizeOfMessage := sizeOfMessage.toNat,
         buffer := data ++ List.replicate (sizeOfMessage.toNat - data.length) 0,
         stubBuffer := [] }, [])
    else if hexact : 4 < sizeOfMessage ∧ sizeOfMessage < (maxBson : Int) ∧
        sizeOfMessage = (data.length : Int) then
      (emptyParse, [PEvent.message data])
    else if hsmall : sizeOfMessage ≤ 4 ∨ (maxBson : Int) < sizeOfMessage then
      (emptyParse, [PEvent.parseError])
    else
      let emitBuffer := data.take sizeOfMessage.toNat
      let rest := dataHandler maxBson emptyParse (data.drop sizeOfMessage.toNat)
      (rest.1, PEvent.message emitBuffer :: rest.2)
  else
    ({ st with stubBuffer := data }, [])
termination_by parseMeasure st data
decreasing_by
  · simp [parseMeasure, emptyParse, hacc]
    omega
  · simp [parseMeasure, emptyParse, hstub]
    omega
  · simp [parseMeasure, emptyParse]
    push_neg at hsmall
    omega

/-- Feed a sequence of socket chunks in order, collecting all emitted
events. -/
def feedAll (maxBson : Nat) (st : ParseState) (chunks : List (List Nat)) :
    ParseState × List PEvent :=
  match chunks with
  | [] => (st, [])
  | c :: cs =>
    let r1 := dataHandler maxBson st c
    let r2 := feedAll maxBson r1.1 cs
    (r2.1, r1.2 ++ r2.2)

/-- Modelled from the spec: `MESSAGE_HEADER_SIZE` is imported from
`wireprotocol/shared`, which is not part of the sources; the spec fixes the
frame header at 16 bytes. -/
def MESSAGE_HEADER_SIZE : Nat := 16

/-- Modelled from the spec: the opcode constants come from
`wireprotocol/shared`; the spec treats the exact numeric values as an
external contract, so the standard MongoDB value is used — only its
distinctness from other opcodes matters below. -/
def OP_COMPRESSED : Int := 2012

/-- Modelled from the spec: the `OP_MSG` opcode constant from
`wireprotocol/shared` (external contract; standard value used). -/
def OP_MSG : Int := 2013

/-- The four fixed header fields of a frame. -/
structure MessageHeader where
  length : Int
  requestId : Int
  responseTo : Int
  opCode : Int
deriving DecidableEq, Repr

/-- Modelled from the spec: `parseHeader` is imported from
`wireprotocol/shared`; per the spec the fixed 16-byte header holds four
little-endian int32 fields `messageLength, requestId, responseTo, opCode`. -/
def parseHeader (message : List Nat) : MessageHeader :=
  { length := readInt32LE message
    requestId := readInt32LE (message.drop 4)
    responseTo := readInt32LE (message.drop 8)
    opCode := readInt32LE (message.drop 12) }

/-- The response constructor chosen by `processMessage`:
`opCode === OP_MSG ? BinMsg : Response`. -/
inductive RespVariant where
  | binMsg
  | response
deriving DecidableEq, Repr

/-- Which response class `processMessage` instantiates for an opcode. -/
def variantFor (op : Int) : RespVariant :=
  if op = OP_MSG then RespVariant.binMsg else RespVariant.response

/-- Notifications emitted by `processMessage` on the connection:
`message op v body` is a `message` event carrying a response object built
by constructor `v` for opcode `op` with body bytes `body`;
`decodeError corrupt` is an `error` event, with `corrupt = true` for the
corrupt-decompressed-message `MongoError` and `false` for a propagated
decompressor failure. -/
inductive MsgEvent where
  | message (op : Int) (v : RespVariant) (body : List Nat)
  | decodeError (corrupt : Bool)
deriving DecidableEq, Repr

/-- `processMessage` (source lines 418-478) together with the decompression
callback it registers.  `destroyed` is the owning connection's destroyed
flag at the time the callback runs: the source callback reads `conn` but
never consults `conn.destroyed`.  `dres` is the outcome the injected
`decompress` capability passes to the callback (`none` for an error,
`some body` for decompressed bytes); it is ignored on the uncompressed
path, which never calls `decompress`. -/
def processMessage (destroyed : Bool) (message : List Nat)
    (dres : Option (List Nat)) : List MsgEvent :=
  let msgHeader := parseHeader message
  if msgHeader.opCode ≠ OP_COMPRESSED then
    [MsgEvent.message msgHeader.opCode (variantFor msgHeader.opCode)
      (message.drop MESSAGE_HEADER_SIZE)]
  else
    let innerOpCode := readInt32LE (message.drop MESSAGE_HEADER_SIZE)
    let uncompressedSize := readInt32LE (message.drop (MESSAGE_HEADER_SIZE + 4))
    match dres with
    | none => [MsgEvent.decodeError false]
    | some decompressedMsgBody =>
      if (decompressedMsgBody.length : Int) ≠ uncompressedSize then
        [MsgEvent.decodeError true]
      else
        [MsgEvent.message innerOpCode (variantFor innerOpCode) decompressedMsgBody]

/-- The recognized constructor options (`SocketOptions`, source lines
49-63), restricted to the fields the constructor derives state from.
`none` models an absent / wrongly typed option, matching the source's
`typeof` checks; for `port`, `host` and `maxBsonMessageSize` the source
uses `||`, so falsy values (`0`, the empty string) also fall back to the
default. -/
structure SocketOptions where
  host : Option String := none
  port : Option Nat := none
  keepAlive : Option Bool := none
  keepAliveInitialDelay : Option Nat := none
  connectionTimeout : Option Nat := none
  socketTimeout : Option Nat := none
  maxBsonMessageSize : Option Nat := none
  promoteLongs : Option Bool := none
  promoteValues : Option Bool := none
  promoteBuffers : Option Bool := none
deriving DecidableEq, Repr

/-- `DEFAULT_MAX_BSON_MESSAGE_SIZE` (source line 24). -/
def DEFAULT_MAX_BSON_MESSAGE_SIZE : Nat := 1024 * 1024 * 16 * 4

/-- The configuration-derived fields of a freshly constructed
`Connection`. -/
structure ConnectionInit where
  maxBsonMessageSize : Nat
  port : Nat
  host : String
  socketTimeout : Nat
  keepAlive : Bool
  keepAliveInitialDelay : Nat
  connectionTimeout : Nat
  promoteLongs : Bool
  promoteValues : Bool
  promoteBuffers : Bool
  destroyed : Bool
deriving DecidableEq, Repr

/-- The option processing of the `Connection` constructor (source lines
140-178).  `Math.round(socketTimeout / 2)` on a natural number of
milliseconds is `(socketTimeout + 1) / 2` (round half up). -/
def connectionInit (o : SocketOptions) : ConnectionInit :=
  let maxB := match o.maxBsonMessageSize with
    | some m => if m = 0 then DEFAULT_MAX_BSON_MESSAGE_SIZE else m
    | none => DEFAULT_MAX_BSON_MESSAGE_SIZE
  let portV := match o.port with
    | some p => if p = 0 then 27017 else p
    | none => 27017
  let hostV := match o.host with
    | some h => if h = "" then "localhost" else h
    | none => "localhost"
  let sockT := match o.socketTimeout with
    | some s => s
    | none => 360000
  let ka := match o.keepAlive with
    | some b => b
    | none => true
  let kaid0 := match o.keepAliveInitialDelay with
    | some k => k
    | none => 300000
  let connT := match o.connectionTimeout with
    | some c => c
    | none => 30000
  let kaid := if sockT < kaid0 then (sockT + 1) / 2 else kaid0
  { maxBsonMessageSize := maxB
    port := portV
    host := hostV
    socketTimeout := sockT
    keepAlive := ka
    keepAliveInitialDelay := kaid
    connectionTimeout := connT
    promoteLongs := o.promoteLongs.getD true
    promoteValues := o.promoteValues.getD true
    promoteBuffers := o.promoteBuffers.getD false
    destroyed := false }

/-- The flags of the wrapped `net.Socket` that the connection reads. -/
structure SocketState where
  destroyed : Bool
  writable : Bool
deriving DecidableEq, Repr

/-- The lifecycle-relevant state of a `Connection`: its own `destroyed`
flag plus its socket's flags. -/
structure ConnState where
  destroyed : Bool
  socket : SocketState
deriving DecidableEq, Repr

/-- `Connection.isConnected` (source lines 344-347). -/
def isConnected (c : ConnState) : Bool :=
  if c.destroyed then false else (!c.socket.destroyed && c.socket.writable)

/-- The notifications a connection can emit on its event surface
(source doc: `connect`, `close`, `error`, `timeout`, `parseError`,
`message`). -/
inductive ConnNotice where
  | connectN
  | closeN
  | errorN
  | timeoutN
  | parseErrorN
  | messageN
deriving DecidableEq, Repr

/-- `deleteConnection` (source lines 350-357) on the registry, modelled as
the list of registered ids. -/
def deleteConnection (reg : List Nat) (id : Nat) : List Nat :=
  reg.filter (fun x => x ≠ id)

/-- `errorHandler` (source lines 370-382): when accounting is enabled the
id is removed from the registry, then an `error` notification is emitted.
The connection state itself — in particular its `destroyed` flag — is not
modified.  Result: (registry, connection state, notifications). -/
def errorHandler (acct : Bool) (reg : List Nat) (id : Nat) (c : ConnState) :
    List Nat × ConnState × List ConnNotice :=
  ((if acct then deleteConnection reg id else reg), c, [ConnNotice.errorN])

/-- `timeoutHandler` (source lines 384-398): like `errorHandler` but
emitting `timeout`. -/
def timeoutHandler (acct : Bool) (reg : List Nat) (id : Nat) (c : ConnState) :
    List Nat × ConnState × List ConnNotice :=
  ((if acct then deleteConnection reg id else reg), c, [ConnNotice.timeoutN])

/-- `closeHandler` (source lines 400-416): removes from the registry when
accounting is enabled and emits `close` only when the socket closed
without a prior error. -/
def closeHandler (acct : Bool) (reg : List Nat) (id : Nat) (hadError : Bool)
    (c : ConnState) : List Nat × ConnState × List ConnNotice :=
  ((if acct then deleteConnection reg id else reg), c,
    if hadError then [] else [ConnNotice.closeN])

/-- Socket state as seen by `Connection.destroy`: whether the reference is
`null`, whether `socket.destroy()` has been called, and whether
`socket.end()` has been called. -/
structure DestroySocket where
  isNull : Bool
  destroyCalled : Bool
  endCalled : Bool
deriving DecidableEq, Repr

/-- Everything observable about one `Connection.destroy` call: the
registry afterwards, the connection's `destroyed` flag, the socket state,
the notifications emitted on the connection, how many times the supplied
callback ran, and how many `deleteConnection` notifications the accounting
spy received. -/
structure DestroyOutcome where
  reg : List Nat
  destroyed : Bool
  socket : DestroySocket
  notices : List ConnNotice
  callbackCount : Nat
  spyDeletes : Nat
deriving DecidableEq, Repr

/-- `Connection.destroy` (source lines 254-283), with the eventual effect
of the `socket.end` completion callback (which sets `destroyed` and runs
the user callback) included, since the claim is about the settled state.
`hasCallback` records whether a callback argument was supplied. -/
def destroy (acct spy force hasCallback : Bool) (reg : List Nat) (id : Nat)
    (destroyed : Bool) (sock : DestroySocket) : DestroyOutcome :=
  let reg2 := if acct then deleteConnection reg id else reg
  let spyCalls := if acct && spy then 1 else 0
  if sock.isNull then
    { reg := reg2, destroyed := true, socket := sock, notices := [],
      callbackCount := 0, spyDeletes := spyCalls }
  else if force then
    { reg := reg2, destroyed := true,
      socket := { sock with destroyCalled := true }, notices := [],
      callbackCount := if hasCallback then 1 else 0, spyDeletes := spyCalls }
  else
    { reg := reg2, destroyed := true,
      socket := { sock with endCalled := true }, notices := [],
      callbackCount := if hasCallback then 1 else 0, spyDeletes := spyCalls }

/-- The parse-state invariant maintained by the data handler on all states
reachable from `emptyParse`: either the state is idle (`bytesRead` and
`sizeOfMessage` zero, no accumulating buffer) or it is accumulating
(`0 < bytesRead < sizeOfMessage`, the buffer allocated at exactly
`sizeOfMessage` bytes, no stub held). -/
def goodState (st : ParseState) : Prop :=
  (st.bytesRead = 0 ∧ st.sizeOfMessage = 0 ∧ st.buffer = []) ∨
  (0 < st.bytesRead ∧ st.bytesRead < st.sizeOfMessage ∧
    st.buffer.length = st.sizeOfMessage ∧ st.stubBuffer = [])

theorem goodState_empty : goodState emptyParse := by
  simp [goodState, emptyParse]

theorem bufCopy_length (src tgt : List Nat) (o : Nat)
    (h : o + src.length ≤ tgt.length) : (bufCopy src tgt o).length = tgt.length := by
  simp [bufCopy]
  omega

/-- Removing an id from the registry twice is the same as removing it
once. -/
theorem deleteConnection_idem (reg : List Nat) (id : Nat) :
    deleteConnection (deleteConnection reg id) id = deleteConnection reg id := by
  simp [deleteConnection, List.filter_filter]

/-- The data handler preserves the reachable-state invariant on any single
chunk. -/
theorem dataHandler_good (maxBson : Nat) (st : ParseState) (data : List Nat) :
    goodState st → goodState (dataHandler maxBson st data).1 := by
  induction st, data using dataHandler.induct maxBson with
  | case1 st data h0 =>
    intro h
    rw [dataHandler.eq_def]
    simp only [dif_pos h0]
    exact h
  | case2 st data h0 hacc rem hrem =>
    intro h
    have hrem2 : data.length < st.sizeOfMessage - st.bytesRead := hrem
    rw [dataHandler.eq_def]
    simp only [dif_neg h0, dif_pos hacc, dif_pos hrem2, goodState]
    rcases h with h | h
    · exact absurd hacc.1 (by omega)
    · obtain ⟨hb, hbs, hlen2, hstub2⟩ := h
      refine Or.inr ⟨by omega, by omega, ?_, hstub2⟩
      have hl := bufCopy_length data st.buffer st.bytesRead (by omega)
      omega
  | case3 st data h0 hacc rem hrem ih =>
    intro _
    have hrem2 : ¬ data.length < st.sizeOfMessage - st.bytesRead := hrem
    rw [dataHandler.eq_def]
    simp only [dif_neg h0, dif_pos hacc, dif_neg hrem2]
    exact ih goodState_empty
  | case4 st data h0 hacc hstub hcat ih =>
    intro _
    rw [dataHandler.eq_def]
    simp only [dif_neg h0, dif_neg hacc, dif_pos hstub, dif_pos hcat]
    exact ih goodState_empty
  | case5 st data h0 hacc hstub hcat =>
    intro h
    rw [dataHandler.eq_def]
    simp only [dif_neg h0, dif_neg hacc, dif_pos hstub, dif_neg hcat]
    exact h
  | case6 st data h0 hacc hstub hlen size hbad =>
    intro h
    have hbad2 : readInt32LE data < 0 ∨ (maxBson : Int) < readInt32LE data := hbad
    rw [dataHandler.eq_def]
    simp only [dif_neg h0, dif_neg hacc, dif_neg hstub, dif_pos hlen, dif_pos hbad2]
    exact h
  | case7 st data h0 hacc hstub hlen size hbad hacc1 =>
    intro _
    have hbad2 : ¬ (readInt32LE data < 0 ∨ (maxBson : Int) < readInt32LE data) := hbad
    have hacc2 : 4 < readInt32LE data ∧ readInt32LE data < (maxBson : Int) ∧
        ((data.length : Int) < readInt32LE data) := hacc1
    rw [dataHandler.eq_def]
    simp only [dif_neg h0, dif_neg hacc, dif_neg hstub, dif_pos hlen, dif_neg hbad2,
      dif_pos hacc2, goodState]
    refine Or.inr ⟨by omega, by omega, ?_, trivial⟩
    simp only [List.length_append, List.length_replicate]
    omega
  | case8 st data h0 hacc hstub hlen size hbad hacc1 hexact =>
    intro _
    have hbad2 : ¬ (readInt32LE data < 0 ∨ (maxBson : Int) < readInt32LE data) := hbad
    have hacc2 : ¬ (4 < readInt32LE data ∧ readInt32LE data < (maxBson : Int) ∧
        ((data.length : Int) < readInt32LE data)) := hacc1
    have hex2 : 4 < readInt32LE data ∧ readInt32LE data < (maxBson : Int) ∧
        readInt32LE data = (data.length : Int) := hexact
    rw [dataHandler.eq_def]
    simp only [dif_neg h0, dif_neg hacc, dif_neg hstub, dif_pos hlen, dif_neg hbad2,
      dif_neg hacc2, dif_pos hex2]
    exact goodState_empty
  | case9 st data h0 hacc hstub hlen size hbad hacc1 hexact hsmall =>
    intro _
    have hbad2 : ¬ (readInt32LE data < 0 ∨ (maxBson : Int) < readInt32LE data) := hbad
    have hacc2 : ¬ (4 < readInt32LE data ∧ readInt32LE data < (maxBson : Int) ∧
        ((data.length : Int) < readInt32LE data)) := hacc1
    have hex2 : ¬ (4 < readInt32LE data ∧ readInt32LE data < (maxBson : Int) ∧
        readInt32LE data = (data.length : Int)) := hexact
    have hsm2 : readInt32LE data ≤ 4 ∨ (maxBson : Int) < readInt32LE data := hsmall
    rw [dataHandler.eq_def]
    simp only [dif_neg h0, dif_neg hacc, dif_neg hstub, dif_pos hlen, dif_neg hbad2,
      dif_neg hacc2, dif_neg hex2, dif_pos hsm2]
    exact goodState_empty
  | case10 st data h0 hacc hstub hlen size hbad hacc1 hexact hsmall ih =>
    intro _
    have hbad2 : ¬ (readInt32LE data < 0 ∨ (maxBson : Int) < readInt32LE data) := hbad
    have hacc2 : ¬ (4 < readInt32LE data ∧ readInt32LE data < (maxBson : Int) ∧
        ((data.length : Int) < readInt32LE data)) := hacc1
    have hex2 : ¬ (4 < readInt32LE data ∧ readInt32LE data < (maxBson : Int) ∧
        readInt32LE data = (data.length : Int)) := hexact
    have hsm2 : ¬ (readInt32LE data ≤ 4 ∨ (maxBson : Int) < readInt32LE data) := hsmall
    rw [dataHandler.eq_def]
    simp only [dif_neg h0, dif_neg hacc, dif_neg hstub, dif_pos hlen, dif_neg hbad2,
      dif_neg hacc2, dif_neg hex2, dif_neg hsm2]
    exact ih goodState_empty
  | case11 st data h0 hacc hstub hlen =>
    intro h
    rw [dataHandler.eq_def]
    simp only [dif_neg h0, dif_neg hacc, dif_neg hstub, dif_neg hlen, goodState]
    rcases h with h | h
    · exact Or.inl ⟨h.1, h.2.1, h.2.2⟩
    · exact absurd ⟨h.1, by omega⟩ hacc

/-- The reachable-state invariant is preserved across any chunk
sequence. -/
theorem feedAll_good (maxBson : Nat) (chunks : List (List Nat)) (st : ParseState) :
    goodState st → goodState (feedAll maxBson st chunks).1 := by
  induction chunks generalizing st with
  | nil => intro h; exact h
  | cons c cs ih =>
    intro h
    exact ih _ (dataHandler_good maxBson st c h)

/-- A frame whose length prefix equals its length, longer than 4 bytes and
strictly below `maxBsonMessageSize`, delivered as one chunk to the empty
state, is emitted exactly once and the state is reset. -/
theorem frame_parses (maxBson : Nat) (B : List Nat)
    (h4 : 4 < B.length) (hmax : B.length < maxBson)
    (hpre : readInt32LE B = (B.length : Int)) :
    dataHandler maxBson emptyParse B = (emptyParse, [PEvent.message B]) := by
  have h0 : ¬ B.length = 0 := by omega
  have hacc : ¬ (0 < emptyParse.bytesRead ∧ 0 < emptyParse.sizeOfMessage) := by
    simp [emptyParse]
  have hstub : ¬ (emptyParse.stubBuffer.length ≠ 0) := by simp [emptyParse]
  have hbad : ¬ (readInt32LE B < 0 ∨ (maxBson : Int) < readInt32LE B) := by
    rw [hpre]; omega
  have hacc1 : ¬ (4 < readInt32LE B ∧ readInt32LE B < (maxBson : Int) ∧
      (B.length : Int) < readInt32LE B) := by
    rw [hpre]; omega
  have hexact : 4 < readInt32LE B ∧ readInt32LE B < (maxBson : Int) ∧
      readInt32LE B = (B.length : Int) := by
    rw [hpre]; omega
  rw [dataHandler.eq_def]
  simp only [dif_neg h0, dif_neg hacc, dif_neg hstub, dif_pos h4, dif_neg hbad,
    dif_neg hacc1, dif_pos hexact]

/-- Claim C1: the claim states that every partition of a valid frame fed
piecewise from the empty state yields exactly one message and no parse
error.  The code violates this: `[6,0,0,0,0,0]` is a valid frame for
`maxBsonMessageSize = 100` (length prefix 6 equals its length, between 4
and the maximum), yet feeding it as the pieces `[6]`, `[0]`, `[0,0,0,0]`
produces no event at all — the second piece is dropped because the source
builds `newStubBuffer` without ever assigning it to `conn.stubBuffer`, so
the parser stalls one byte short of the frame forever. -/
theorem claim1_fragmentation_loses_bytes :
    readInt32LE [6, 0, 0, 0, 0, 0] = 6 ∧
    List.flatten [[6], [0], [0, 0, 0, 0]] = [6, 0, 0, 0, 0, 0] ∧
    4 < ([6, 0, 0, 0, 0, 0] : List Nat).length ∧
    ([6, 0, 0, 0, 0, 0] : List Nat).length < 100 ∧
    (feedAll 100 emptyParse [[6], [0], [0, 0, 0, 0]]).2 = [] := by
  refine ⟨by decide, by decide, by decide, by decide, ?_⟩
  simp [feedAll, dataHandler, emptyParse, readInt32LE, bufCopy]

/-- Claim C2, counterexample: the claim states that after a chunk whose
first 4 bytes decode to a negative int32, a well-formed frame whose bytes
immediately follow the offending length prefix in the same chunk is still
parsed and emitted.  In the chunk below the first 4 bytes decode to `-4`
and the remaining 5 bytes are the valid frame `[5,0,0,0,9]`, yet the
handler emits only the parse error: the message event for the trailing
frame is absent because the source `return`s, discarding the rest of the
chunk. -/
theorem claim2_counterexample :
    readInt32LE [252, 255, 255, 255, 5, 0, 0, 0, 9] = -4 ∧
    readInt32LE [5, 0, 0, 0, 9] = 5 ∧
    dataHandler 100 emptyParse [252, 255, 255, 255, 5, 0, 0, 0, 9] =
      (emptyParse, [PEvent.parseError]) ∧
    PEvent.message [5, 0, 0, 0, 9] ∉ [PEvent.parseError] := by
  refine ⟨by decide, by decide, ?_, by decide⟩
  simp [dataHandler, emptyParse, readInt32LE]

/-- Claim C2, amended: a chunk of more than 4 bytes fed with no held parse
state whose length prefix is negative or exceeds `maxBsonMessageSize`
yields exactly one parse error and leaves the parser in the empty state,
but the remainder of that chunk is discarded; a well-formed frame arriving
in a subsequent chunk is still parsed and emitted. -/
theorem claim2_amended (maxBson : Nat) (data B : List Nat)
    (hlen : 4 < data.length)
    (hbad : readInt32LE data < 0 ∨ (maxBson : Int) < readInt32LE data)
    (hB4 : 4 < B.length) (hBmax : B.length < maxBson)
    (hBpre : readInt32LE B = (B.length : Int)) :
    dataHandler maxBson emptyParse data = (emptyParse, [PEvent.parseError]) ∧
    (feedAll maxBson emptyParse [data, B]).2 =
      [PEvent.parseError, PEvent.message B] := by
  have hacc : ¬ (0 < emptyParse.bytesRead ∧ 0 < emptyParse.sizeOfMessage) := by
    simp [emptyParse]
  have hstub : ¬ (emptyParse.stubBuffer.length ≠ 0) := by simp [emptyParse]
  have h0 : ¬ data.length = 0 := by omega
  have h1 : dataHandler maxBson emptyParse data = (emptyParse, [PEvent.parseError]) := by
    rw [dataHandler.eq_def]
    simp only [dif_neg h0, dif_neg hacc, dif_neg hstub, dif_pos hlen, dif_pos hbad]
  have h2 := frame_parses maxBson B hB4 hBmax hBpre
  exact ⟨h1, by simp [feedAll, h1, h2]⟩

/-- Claim C2, witness for the amended theorem at a concrete input: a
5-byte chunk with a negative prefix, then the valid frame `[5,0,0,0,9]`
as the following chunk. -/
theorem claim2_amended_witness :
    dataHandler 100 emptyParse [252, 255, 255, 255, 9] =
      (emptyParse, [PEvent.parseError]) ∧
    (feedAll 100 emptyParse [[252, 255, 255, 255, 9], [5, 0, 0, 0, 9]]).2 =
      [PEvent.parseError, PEvent.message [5, 0, 0, 0, 9]] :=
  claim2_amended 100 [252, 255, 255, 255, 9] [5, 0, 0, 0, 9] (by decide) (by decide)
    (by decide) (by decide) (by decide)

/-- Claim C3, counterexample: the claim allows `frameLength` equal to
`maxBsonMessageSize` and requires accumulation when the chunk is shorter
than `frameLength`.  With `maxBsonMessageSize = 8` and the 5-byte chunk
`[8,0,0,0,0]` (prefix 8, so 3 bytes are still missing), the code does not
accumulate and does not stay silent: it emits the 5 available bytes as a
truncated message and resets, because the accumulate branch requires
`sizeOfMessage < maxBsonMessageSize` strictly. -/
theorem claim3_counterexample :
    readInt32LE [8, 0, 0, 0, 0] = 8 ∧
    ([8, 0, 0, 0, 0] : List Nat).length = 5 ∧
    dataHandler 8 emptyParse [8, 0, 0, 0, 0] =
      (emptyParse, [PEvent.message [8, 0, 0, 0, 0]]) ∧
    ¬ ([PEvent.message [8, 0, 0, 0, 0]] = ([] : List PEvent)) := by
  refine ⟨by decide, by decide, ?_, by decide⟩
  simp [dataHandler, emptyParse, readInt32LE]

/-- Claim C3, amended: for a chunk of more than 4 bytes fed with no held
state whose length prefix satisfies `4 < frameLength < maxBsonMessageSize`
strictly and exceeds the available bytes, the handler emits nothing,
allocates an accumulating buffer of exactly `frameLength` bytes holding
the available bytes (zero-padded), records `bytesRead`, and exhausts the
chunk. -/
theorem claim3_amended (maxBson : Nat) (data : List Nat)
    (hlen : 4 < data.length) (h4 : 4 < readInt32LE data)
    (hmax : readInt32LE data < (maxBson : Int))
    (hgt : (data.length : Int) < readInt32LE data) :
    dataHandler maxBson emptyParse data =
      ({ bytesRead := data.length, sizeOfMessage := (readInt32LE data).toNat,
         buffer := data ++ List.replicate ((readInt32LE data).toNat - data.length) 0,
         stubBuffer := [] }, []) := by
  have h0 : ¬ data.length = 0 := by omega
  have hacc : ¬ (0 < emptyParse.bytesRead ∧ 0 < emptyParse.sizeOfMessage) := by
    simp [emptyParse]
  have hstub : ¬ (emptyParse.stubBuffer.length ≠ 0) := by simp [emptyParse]
  have hbad : ¬ (readInt32LE data < 0 ∨ (maxBson : Int) < readInt32LE data) := by omega
  have hacc1 : 4 < readInt32LE data ∧ readInt32LE data < (maxBson : Int) ∧
      (data.length : Int) < readInt32LE data := ⟨h4, hmax, hgt⟩
  rw [dataHandler.eq_def]
  simp only [dif_neg h0, dif_neg hacc, dif_neg hstub, dif_pos hlen, dif_neg hbad,
    dif_pos hacc1]

/-- Claim C3, witness for the amended theorem: prefix 9 with only 5 bytes
available and `maxBsonMessageSize = 100` accumulates. -/
theorem claim3_amended_witness :
    dataHandler 100 emptyParse [9, 0, 0, 0, 1] =
      ({ bytesRead := 5, sizeOfMessage := 9,
         buffer := [9, 0, 0, 0, 1] ++ List.replicate 4 0, stubBuffer := [] }, []) := by
  have h := claim3_amended 100 [9, 0, 0, 0, 1] (by decide) (by decide) (by decide)
    (by decide)
  simpa using h

/-- Claim C4, counterexample: the claim states the effective
`keepAliveInitialDelay` is `min(requested, socketTimeout / 2)`.  With
`keepAliveInitialDelay = 300000` and `socketTimeout = 400000` the
constructor keeps `300000`, not `min 300000 (400000 / 2) = 200000`: the
source caps only when the requested value exceeds the full
`socketTimeout`. -/
theorem claim4_counterexample :
    (connectionInit { keepAliveInitialDelay := some 300000, socketTimeout := some 400000 }).keepAliveInitialDelay = 300000 ∧
    Nat.min 300000 (400000 / 2) = 200000 ∧
    (connectionInit { keepAliveInitialDelay := some 300000, socketTimeout := some 400000 }).keepAliveInitialDelay ≠
      Nat.min 300000 (400000 / 2) := by
  refine ⟨by decide, by decide, by decide⟩

/-- Claim C4, amended: the effective `keepAliveInitialDelay` equals the
requested value whenever it is at most `socketTimeout` (even when it
exceeds half of `socketTimeout`); only a request strictly greater than
`socketTimeout` is replaced, by `socketTimeout / 2` rounded half up. -/
theorem claim4_amended (k s : Nat) :
    (connectionInit { keepAliveInitialDelay := some k, socketTimeout := some s }).keepAliveInitialDelay =
      if s < k then (s + 1) / 2 else k := by
  simp [connectionInit]

/-- Claim C5, counterexample: the claim states that after a transport
`error` event the connection's destroyed flag is set and `isConnected`
returns false.  Running the error handler on a live connection (socket
not destroyed, writable) leaves `destroyed = false` and `isConnected`
still true: the handlers only unregister and emit, and never set the
flag. -/
theorem claim5_counterexample :
    ((errorHandler true [7] 7 { destroyed := false, socket := { destroyed := false, writable := true } }).2.1).destroyed = false ∧
    isConnected (errorHandler true [7] 7 { destroyed := false, socket := { destroyed := false, writable := true } }).2.1 = true := by
  decide

/-- Claim C5, amended: the `error`, `timeout` and `close` handlers remove
the connection from the registry (when accounting is enabled) and emit
exactly the corresponding typed notification (`close` only if the socket
closed without a prior error); they leave the connection state — in
particular the `destroyed` flag — unchanged, so only `destroy()` marks
the connection destroyed. -/
theorem claim5_amended (reg : List Nat) (id : Nat) (c : ConnState) (hadError : Bool) :
    (errorHandler true reg id c).2.1 = c ∧
    (errorHandler true reg id c).1 = deleteConnection reg id ∧
    id ∉ (errorHandler true reg id c).1 ∧
    (errorHandler true reg id c).2.2 = [ConnNotice.errorN] ∧
    (timeoutHandler true reg id c).2.1 = c ∧
    (timeoutHandler true reg id c).2.2 = [ConnNotice.timeoutN] ∧
    (closeHandler true reg id hadError c).2.1 = c ∧
    (closeHandler true reg id hadError c).2.2 =
      (if hadError then [] else [ConnNotice.closeN]) := by
  refine ⟨rfl, rfl, ?_, rfl, rfl, rfl, rfl, rfl⟩
  simp [errorHandler, deleteConnection]

/-- Claim C6: for a frame with `opCode = OP_COMPRESSED` whose injected
decompression succeeds, a decompressed body whose length differs from the
declared `uncompressedSize` yields exactly the corrupt-message error and
no message event, while an exact length match yields exactly one message
event whose constructor is selected by the original opcode and whose body
is the decompressed bytes; independently, the connection stays usable: a
valid frame fed to the (untouched) empty parse state is still parsed and
emitted. -/
theorem claim6_compressed_decode (d : Bool) (message body B : List Nat) (maxBson : Nat)
    (hop : (parseHeader message).opCode = OP_COMPRESSED)
    (hB4 : 4 < B.length) (hBmax : B.length < maxBson)
    (hBpre : readInt32LE B = (B.length : Int)) :
    ((body.length : Int) ≠ readInt32LE (message.drop 20) →
      processMessage d message (some body) = [MsgEvent.decodeError true]) ∧
    ((body.length : Int) = readInt32LE (message.drop 20) →
      processMessage d message (some body) =
        [MsgEvent.message (readInt32LE (message.drop 16))
          (variantFor (readInt32LE (message.drop 16))) body]) ∧
    dataHandler maxBson emptyParse B = (emptyParse, [PEvent.message B]) := by
  refine ⟨?_, ?_, frame_parses maxBson B hB4 hBmax hBpre⟩
  · intro hne
    simp [processMessage, hop, MESSAGE_HEADER_SIZE, hne]
  · intro heq
    simp [processMessage, hop, MESSAGE_HEADER_SIZE, heq]

/-- Claim C6, witness: a concrete compressed frame (declared
`uncompressedSize = 1`, original opcode `OP_MSG`) with a matching 1-byte
body produces the message event, and with a 2-byte body produces the
corrupt-message error. -/
theorem claim6_compressed_decode_witness :
    processMessage false
      [41, 0, 0, 0, 0, 0, 0, 0, 0, 0, 0, 0, 220, 7, 0, 0, 221, 7, 0, 0, 1, 0, 0, 0, 0, 99]
      (some [9]) = [MsgEvent.message 2013 (variantFor 2013) [9]] ∧
    processMessage false
      [41, 0, 0, 0, 0, 0, 0, 0, 0, 0, 0, 0, 220, 7, 0, 0, 221, 7, 0, 0, 1, 0, 0, 0, 0, 99]
      (some [9, 9]) = [MsgEvent.decodeError true] := by
  constructor
  · exact (claim6_compressed_decode false _ [9] [5, 0, 0, 0, 9] 100 (by decide)
      (by decide) (by decide) (by decide)).2.1 (by decide)
  · exact (claim6_compressed_decode false _ [9, 9] [5, 0, 0, 0, 9] 100 (by decide)
      (by decide) (by decide) (by decide)).1 (by decide)

/-- Claim C7, counterexample: the claim states a decompression completing
after destruction emits nothing on the destroyed connection.  The
callback never consults the destroyed flag: with `destroyed = true` it
still emits the message event. -/
theorem claim7_counterexample :
    processMessage true
      [41, 0, 0, 0, 0, 0, 0, 0, 0, 0, 0, 0, 220, 7, 0, 0, 221, 7, 0, 0, 1, 0, 0, 0, 0, 99]
      (some [9]) = [MsgEvent.message 2013 RespVariant.binMsg [9]] ∧
    [MsgEvent.message 2013 RespVariant.binMsg [9]] ≠ ([] : List MsgEvent) := by
  exact ⟨by decide, by decide⟩

/-- Claim C7, amended: destruction does not suppress in-flight
decompression callbacks — the completion behaves identically whether or
not the connection is destroyed, and always emits exactly one
notification (a message or an error) on the connection. -/
theorem claim7_amended (message : List Nat) (dres : Option (List Nat)) :
    processMessage true message dres = processMessage false message dres ∧
    (processMessage true message dres).length = 1 := by
  constructor
  · rfl
  · cases dres with
    | none =>
      simp only [processMessage]
      split <;> simp
    | some b =>
      simp only [processMessage]
      split
      · simp
      · split <;> simp

/-- Claim C8: calling `destroy()` (default options, no callback) twice has
the same observable effect as calling it once — the second call leaves
the destroyed flag, the registry and the socket exactly as after the
first, emits no notification on the connection (neither call does), and
invokes no callback. -/
theorem claim8_destroy_idempotent (acct spy : Bool) (reg : List Nat) (id : Nat)
    (sock : DestroySocket) :
    (destroy acct spy false false
        (destroy acct spy false false reg id false sock).reg id
        (destroy acct spy false false reg id false sock).destroyed
        (destroy acct spy false false reg id false sock).socket).destroyed =
      (destroy acct spy false false reg id false sock).destroyed ∧
    (destroy acct spy false false
        (destroy acct spy false false reg id false sock).reg id
        (destroy acct spy false false reg id false sock).destroyed
        (destroy acct spy false false reg id false sock).socket).reg =
      (destroy acct spy false false reg id false sock).reg ∧
    (destroy acct spy false false
        (destroy acct spy false false reg id false sock).reg id
        (destroy acct spy false false reg id false sock).destroyed
        (destroy acct spy false false reg id false sock).socket).socket =
      (destroy acct spy false false reg id false sock).socket ∧
    (destroy acct spy false false
        (destroy acct spy false false reg id false sock).reg id
        (destroy acct spy false false reg id false sock).destroyed
        (destroy acct spy false false reg id false sock).socket).notices = [] ∧
    (destroy acct spy false false reg id false sock).notices = [] ∧
    (destroy acct spy false false
        (destroy acct spy false false reg id false sock).reg id
        (destroy acct spy false false reg id false sock).destroyed
        (destroy acct spy false false reg id false sock).socket).callbackCount = 0 := by
  rcases sock with ⟨n, dc, ec⟩
  cases n <;> cases acct <;> simp [destroy, deleteConnection_idem]

/-- Claim C9: the claim states that a held stub plus a new chunk is kept
as their concatenation, and that a concatenation reaching 4 bytes is
length-parsed.  The code violates both at the failing input below: with
stub `[1,2,3]` held and chunk `[4]` arriving (concatenation of exactly 4
bytes), the handler keeps the old stub `[1,2,3]` unchanged and silently
drops the byte `4` — the source builds `newStubBuffer` but never assigns
it, and the concatenate-and-parse path requires strictly more than 4
bytes. -/
theorem claim9_stub_concat_bug :
    (([1, 2, 3] : List Nat) ++ [4]).length = 4 ∧
    feedAll 100 emptyParse [[1, 2, 3], [4]] =
      ({ bytesRead := 0, sizeOfMessage := 0, buffer := [], stubBuffer := [1, 2, 3] }, []) := by
  refine ⟨by decide, ?_⟩
  simp [feedAll, dataHandler, emptyParse]

/-- Claim C10: starting from the initial parse state, after any sequence
of chunks the parse-state invariant holds: at most one of the stub buffer
and the accumulating buffer is non-empty, and `bytesRead` never exceeds
`sizeOfMessage`. -/
theorem claim10_parse_invariant (maxBson : Nat) (chunks : List (List Nat)) :
    ((feedAll maxBson emptyParse chunks).1.stubBuffer = [] ∨
      (feedAll maxBson emptyParse chunks).1.buffer = []) ∧
    (feedAll maxBson emptyParse chunks).1.bytesRead ≤
      (feedAll maxBson emptyParse chunks).1.sizeOfMessage := by
  have h := feedAll_good maxBson chunks emptyParse goodState_empty
  rcases h with h | h
  · exact ⟨Or.inr h.2.2, by omega⟩
  · exact ⟨Or.inl h.2.2.2, by omega⟩
